import Mathlib

/-!
Verification development for the Dune Legacy air-unit movement core
(`AirUnit`, `Ornithopter`), the tile-occupancy layer it uses, and the
angle helpers of `mmath.h`.

The game's `FixPoint` type is a deterministic binary fixed-point number
(s32.32).  All operations the turning and movement code performs on it
(addition, subtraction, multiplication by a constant, `min`, `abs`,
comparison) embed exactly into `ℚ`, so the unit-state functions are
embedded over `ℚ`.  The bit-level operations of `angleToDrawnAngle`
(`>> 5` on the raw representation) are embedded over the raw integer
representation (scale `2^32`).
-/

set_option maxHeartbeats 2000000

/-- Tile edge length in world units (`TILESIZE` in `HumanPlayer.h`). -/
def TILESIZE : ℤ := 64

/-- Number of discrete sprite angles; the continuous heading `angle` of an
air unit also wraps at this value (`NUM_ANGLES`). -/
def NUM_ANGLES : ℚ := 8

/-- Modelled from the spec: `FixPoint` rounding to the nearest integer
("deterministic rounding ... round-half behavior must be identical across
platforms"); the `FixPoint` class itself is not under `src/`.  Ties are
resolved upward (add one half, then floor), the usual fixed-point
implementation of round-to-nearest. -/
def lroundQ (q : ℚ) : ℤ := ⌊q + 1/2⌋

/-- The local variable `angleRight` computed by `AirUnit::turn` from the
current heading and the destination heading. -/
def angleRightOf (angle destinationAngle : ℚ) : ℚ :=
  if angle > destinationAngle then angle - destinationAngle
  else if angle < destinationAngle then |NUM_ANGLES - destinationAngle| + angle
  else 0

/-- The local variable `angleLeft` computed by `AirUnit::turn` from the
current heading and the destination heading. -/
def angleLeftOf (angle destinationAngle : ℚ) : ℚ :=
  if angle > destinationAngle then |NUM_ANGLES - angle| + destinationAngle
  else if angle < destinationAngle then destinationAngle - angle
  else 0

/-- One step of the heading update of `AirUnit::turn` in the
valid-destination branch: choose the turn direction by comparing
`angleLeft` with `angleRight`, advance the heading by
`min(turnspeed, chosen side)`, and wrap at `NUM_ANGLES`.
`destinationAngle` stands for the value the code computes from the
destination vector via `destinationAngleRad` (trigonometry outside
`src/`); the claims quantify over it directly. -/
def turnTowards (angle destinationAngle turnspeed : ℚ) : ℚ :=
  if angleLeftOf angle destinationAngle ≤ angleRightOf angle destinationAngle then
    if angle + min turnspeed (angleLeftOf angle destinationAngle) ≥ NUM_ANGLES then
      angle + min turnspeed (angleLeftOf angle destinationAngle) - NUM_ANGLES
    else
      angle + min turnspeed (angleLeftOf angle destinationAngle)
  else
    if angle - min turnspeed (angleRightOf angle destinationAngle) < 0 then
      angle - min turnspeed (angleRightOf angle destinationAngle) + NUM_ANGLES
    else
      angle - min turnspeed (angleRightOf angle destinationAngle)

/-- Circular angular distance between two headings represented in
`[0, NUM_ANGLES)`, the ring the code's heading arithmetic lives on. -/
def angularDistance (a b : ℚ) : ℚ := min |a - b| (8 - |a - b|)

/-- Circular angular distance in a 256-unit angle space, the ring the
spec uses to state the turning claims. -/
def angularDistance256 (a b : ℚ) : ℚ := min |a - b| (256 - |a - b|)

/-- The map's per-tile air-unit occupancy: the grid size and, for every
tile coordinate, the tile's `assignedAirUnitList` of object ids. -/
structure TileMap where
  sizeX : ℤ
  sizeY : ℤ
  air : ℤ × ℤ → List ℕ

/-- Modelled from the spec: the map-query collaborator
`tileExists(coord) -> bool` with out-of-bounds coordinates (outside the
map rectangle) reported as non-existent; `Map::tileExists` is not under
`src/`. -/
def tileExists (m : TileMap) (p : ℤ × ℤ) : Bool :=
  decide (0 ≤ p.1) && decide (p.1 < m.sizeX) && decide (0 ≤ p.2) && decide (p.2 < m.sizeY)

/-- Modelled from the spec: `assign(objectID, coordinate, category)` for the
air category registers the id in the tile's occupant list
(`Tile::assignAirUnit` is not under `src/`). -/
def assignAirUnit (m : TileMap) (p : ℤ × ℤ) (objectID : ℕ) : TileMap :=
  { m with air := fun q => if q = p then m.air q ++ [objectID] else m.air q }

/-- Modelled from the spec: `unassign(objectID, coordinate, category)` for
the air category removes the id from the tile's occupant list, guarded by
the same existence check (`UnitBase::unassignFromMap` and
`Tile::unassignAirUnit` are not under `src/`). -/
def unassignFromMap (m : TileMap) (objectID : ℕ) (p : ℤ × ℤ) : TileMap :=
  if tileExists m p then
    { m with air := fun q => if q = p then (m.air q).filter (· != objectID) else m.air q }
  else m

/-- The state of an air unit that the claims are about.  `guardPoint` and
`destination` follow the spec's data model of an optional coordinate with an
explicit valid/invalid state (`none` = invalid). -/
structure AirUnitState where
  objectID : ℕ
  realX : ℚ
  realY : ℚ
  location : ℤ × ℤ
  angle : ℚ
  drawnAngle : ℤ
  guardPoint : Option (ℤ × ℤ)
  destination : Option (ℤ × ℤ)
  currentMaxSpeed : ℚ
  health : ℚ
  hasTarget : Bool
  drawnFrame : ℕ

/-- `AirUnit::assignToMap`: when the target tile exists, adopt it as guard
point if the guard point is still invalid and register the unit in the
tile's air slot; otherwise do nothing. -/
def assignToMap (m : TileMap) (u : AirUnitState) (pos : ℤ × ℤ) : TileMap × AirUnitState :=
  if tileExists m pos then
    (assignAirUnit m pos u.objectID,
     { u with guardPoint := match u.guardPoint with
                            | none => some pos
                            | some g => some g })
  else (m, u)

/-- The tile coordinate `AirUnit::move` recomputes after advancing the
position: `Coord(realX.lround()/TILESIZE, realY.lround()/TILESIZE)`, with
C++ integer division truncating toward zero.  `cosVal` and `sinVal` stand
for the values of `FixPoint::cos`/`FixPoint::sin` at the unit's heading
(trigonometry outside `src/`; the theorems quantify over them). -/
def newLocationOf (cosVal sinVal : ℚ) (u : AirUnitState) : ℤ × ℤ :=
  (Int.tdiv (lroundQ (u.realX + cosVal * u.currentMaxSpeed)) TILESIZE,
   Int.tdiv (lroundQ (u.realY + (-sinVal) * u.currentMaxSpeed)) TILESIZE)

/-- One step of `AirUnit::move`: advance the position by the heading-aligned
velocity, recompute the tile coordinate, and if it changed, unassign from
the old tile, assign to the new tile and store the new location.
`AirUnit::checkPos` (called at the end) does nothing. -/
def moveStep (cosVal sinVal : ℚ) (m : TileMap) (u : AirUnitState) : TileMap × AirUnitState :=
  let realX' := u.realX + cosVal * u.currentMaxSpeed
  let realY' := u.realY + (-sinVal) * u.currentMaxSpeed
  let newLocation := newLocationOf cosVal sinVal u
  if newLocation ≠ u.location then
    let m1 := unassignFromMap m u.objectID u.location
    let mu := assignToMap m1 { u with realX := realX', realY := realY' } newLocation
    (mu.1, { mu.2 with location := newLocation })
  else
    (m, { u with realX := realX', realY := realY' })

/-- The unit with the given id is registered in the air slot of exactly the
one tile `loc` and of no other tile. -/
def registeredExactly (m : TileMap) (objectID : ℕ) (loc : ℤ × ℤ) : Prop :=
  ∀ p, objectID ∈ m.air p ↔ p = loc

/-- The unit with the given id is registered in the air slot of no tile. -/
def registeredNowhere (m : TileMap) (objectID : ℕ) : Prop :=
  ∀ p, objectID ∉ m.air p

/-- The occupancy invariant of the air-unit movement loop: the unit's
location tile exists and the unit occupies exactly that tile's air slot. -/
def airInvariant (m : TileMap) (u : AirUnitState) : Prop :=
  tileExists m u.location = true ∧ registeredExactly m u.objectID u.location

/-- A sequence of `AirUnit::move` steps, each driven by the cosine/sine pair
of the heading at that tick. -/
def moveSteps : List (ℚ × ℚ) → TileMap × AirUnitState → TileMap × AirUnitState
  | [], s => s
  | v :: rest, s => moveSteps rest (moveStep v.1 v.2 s.1 s.2)

/-- Every step of the sequence recomputes a tile coordinate that exists on
the map. -/
def stepsInBounds : List (ℚ × ℚ) → TileMap × AirUnitState → Prop
  | [], _ => True
  | v :: rest, s =>
      tileExists s.1 (newLocationOf v.1 v.2 s.2) = true ∧
      stepsInBounds rest (moveStep v.1 v.2 s.1 s.2)

/-- A two-tile map whose west tile holds unit `7`, for the C2 witness. -/
def mapW : TileMap := ⟨2, 1, fun q => if q = ((0:ℤ), (0:ℤ)) then [7] else []⟩

/-- Unit `7` standing on the west tile of `mapW`, for the C2 witness. -/
def unitW : AirUnitState := ⟨7, 0, 0, (0, 0), 0, 0, some (0, 0), none, 1, 1, false, 0⟩

/-- A one-tile map holding unit `7`, for the C2 counterexample. -/
def mapZ : TileMap := ⟨1, 1, fun q => if q = ((0:ℤ), (0:ℤ)) then [7] else []⟩

/-- Unit `7` standing on the single tile of `mapZ`, for the C2
counterexample. -/
def unitZ : AirUnitState := ⟨7, 0, 0, (0, 0), 0, 0, some (0, 0), none, 1, 1, false, 0⟩

/-- A large empty map, for the C4 counterexample. -/
def mapF : TileMap := ⟨10, 10, fun _ => []⟩

/-- A unit at the origin with speed 1, for the C4 counterexample. -/
def unitF : AirUnitState := ⟨3, 0, 0, (0, 0), 0, 0, some (0, 0), none, 1, 1, false, 0⟩

/-- A one-tile empty map, for the C9 witness. -/
def mapN : TileMap := ⟨1, 1, fun _ => []⟩

/-- A unit used for the C9 witness. -/
def unitN : AirUnitState := ⟨4, 0, 0, (0, 0), 0, 0, none, none, 1, 1, false, 0⟩

/-- `AirUnit::canPass`: a generic air unit may pass any position. -/
def canPassAir (xPos yPos : ℤ) : Bool := true

/-- Modelled from the spec: `Tile::hasAnAirUnit` is the occupancy query
"are there any occupants in the air category" (`Tile` is not under
`src/`). -/
def hasAnAirUnit (m : TileMap) (p : ℤ × ℤ) : Bool := !(m.air p).isEmpty

/-- `Ornithopter::canPass`: the tile must exist and hold no air unit. -/
def canPassOrni (m : TileMap) (xPos yPos : ℤ) : Bool :=
  tileExists m (xPos, yPos) && !(hasAnAirUnit m (xPos, yPos))

/-- One element of a persistence stream: a fixed-point value, an integer, or
a boolean, as written by the `OutputStream` write calls. -/
inductive StreamElem
  | fixv (q : ℚ)
  | intv (n : ℤ)
  | boolv (b : Bool)
deriving DecidableEq

/-- Modelled from the spec: `UnitBase::save` (not under `src/`) writes the
base-class fields in a fixed order — position (`realX`, `realY`), heading,
health, then the destination's valid/invalid state and coordinates. -/
def saveUnitBase (u : AirUnitState) : List StreamElem :=
  [StreamElem.fixv u.realX, StreamElem.fixv u.realY, StreamElem.fixv u.angle,
   StreamElem.fixv u.health, StreamElem.boolv u.destination.isSome,
   StreamElem.intv ((u.destination.getD (0, 0)).1),
   StreamElem.intv ((u.destination.getD (0, 0)).2)]

/-- `AirUnit::save`: write the base-class fields first, then
`currentMaxSpeed` as one fixed-point value. -/
def saveAirUnit (u : AirUnitState) : List StreamElem :=
  saveUnitBase u ++ [StreamElem.fixv u.currentMaxSpeed]

/-- Modelled from the spec: the `UnitBase` stream constructor (not under
`src/`) reads the base-class fields back in exactly the order
`UnitBase::save` wrote them; fields that are not persisted here are
initialized to defaults. -/
def loadUnitBase : List StreamElem → Option (AirUnitState × List StreamElem)
  | StreamElem.fixv rx :: StreamElem.fixv ry :: StreamElem.fixv ang ::
      StreamElem.fixv hp :: StreamElem.boolv dvalid :: StreamElem.intv dx ::
      StreamElem.intv dy :: rest =>
      some ({ objectID := 0, realX := rx, realY := ry,
              location := (Int.tdiv (lroundQ rx) TILESIZE, Int.tdiv (lroundQ ry) TILESIZE),
              angle := ang, drawnAngle := 0, guardPoint := none,
              destination := if dvalid then some (dx, dy) else none,
              currentMaxSpeed := 2, health := hp, hasTarget := false,
              drawnFrame := 0 }, rest)
  | _ => none

/-- The `AirUnit` stream constructor: run the base-class constructor on the
stream, then read `currentMaxSpeed` as the next fixed-point value. -/
def loadAirUnit (s : List StreamElem) : Option (AirUnitState × List StreamElem) :=
  match loadUnitBase s with
  | some (u, rest) =>
      match rest with
      | StreamElem.fixv cms :: rest2 => some ({ u with currentMaxSpeed := cms }, rest2)
      | _ => none
  | none => none

/-- The unit state produced by loading back a saved unit `u` whose saved
destination was `dst`. -/
def loadedBase (u : AirUnitState) (dst : Option (ℤ × ℤ)) : AirUnitState :=
  { objectID := 0, realX := u.realX, realY := u.realY,
    location := (Int.tdiv (lroundQ u.realX) TILESIZE, Int.tdiv (lroundQ u.realY) TILESIZE),
    angle := u.angle, drawnAngle := 0, guardPoint := none,
    destination := dst, currentMaxSpeed := u.currentMaxSpeed,
    health := u.health, hasTarget := false, drawnFrame := 0 }

/-- The item-type identifier of the Sandworm special case in
`Ornithopter::canAttack`; the concrete numeric value is immaterial to the
claims. -/
def Unit_Sandworm : ℕ := 27

/-- The observable state of a candidate target object that
`Ornithopter::canAttack` inspects: whether it is a flying unit, the owning
team, the item type, and per-team visibility. -/
structure TargetObject where
  aFlyingUnit : Bool
  team : ℤ
  itemID : ℕ
  visibleToTeam : ℤ → Bool

/-- `Ornithopter::canAttack`: the candidate must be non-null, not a flying
unit, on an opposing team or a Sandworm, and visible to the observer's
team. -/
def canAttackOrni (ownerTeam : ℤ) (obj : Option TargetObject) : Bool :=
  match obj with
  | none => false
  | some o =>
      (!o.aFlyingUnit) &&
      (decide (o.team ≠ ownerTeam) || decide (o.itemID = Unit_Sandworm)) &&
      o.visibleToTeam ownerTeam

/-- The targeting rule exactly as claim C6 words it, with the Sandworm
exception attached to the flying-unit condition: targetable iff (not a
flying unit, or the Sandworm) and on an opposing team and visible. -/
def canAttackClaim (ownerTeam : ℤ) (o : TargetObject) : Bool :=
  ((!o.aFlyingUnit) || decide (o.itemID = Unit_Sandworm)) &&
  decide (o.team ≠ ownerTeam) && o.visibleToTeam ownerTeam

/-- A visible Sandworm on the observer's own team, for the C6
counterexample. -/
def sandwormAlly : TargetObject := ⟨false, 0, Unit_Sandworm, fun _ => true⟩

/-- Modelled from the spec: `blockDistance`, the "block/Chebyshev-like"
grid-distance metric used for proximity checks between tile coordinates;
the implementation is not under `src/`. -/
def blockDistance (p q : ℤ × ℤ) : ℤ := max |p.1 - q.1| |p.2 - q.2|

/-- Animation frame period of the ornithopter
(`ORNITHOPTER_FRAMETIME`). -/
def ORNITHOPTER_FRAMETIME : ℕ := 3

/-- `Ornithopter::checkPos`: with no combat target, a valid destination
within block distance 2 is invalidated, and with no valid destination a
guard point farther than block distance 17 becomes the new destination;
finally the drawn animation frame is advanced from the game cycle count. -/
def checkPosOrni (gameCycleCount : ℕ) (u : AirUnitState) : AirUnitState :=
  let u1 :=
    if u.hasTarget = false then
      match u.destination with
      | some dest =>
          if blockDistance u.location dest ≤ 2 then { u with destination := none } else u
      | none =>
          match u.guardPoint with
          | some g =>
              if blockDistance u.location g > 17 then { u with destination := some g } else u
          | none => u
    else u
  { u1 with drawnFrame := ((gameCycleCount + u1.objectID) / ORNITHOPTER_FRAMETIME) % 3 }

/-- A unit with a destination one tile away, for the C7 witness. -/
def unitC7 : AirUnitState := ⟨9, 0, 0, (0, 0), 0, 0, some (0, 0), some (1, 1), 1, 1, false, 0⟩

/-- One unit of the raw s32.32 `FixPoint` representation. -/
def FIX_ONE : ℤ := 2 ^ 32

/-- Modelled from the spec: `FixPoint::lround` on the raw representation —
add one half, then shift out the fractional bits (arithmetic shift right by
32, i.e. floor division); the `FixPoint` class is not under `src/`. -/
def lroundRaw (raw : ℤ) : ℤ := Int.fdiv (raw + 2 ^ 31) FIX_ONE

/-- `angleToDrawnAngle` from `mmath.h`: `lround(angle >> 5) & 0x7` on the
raw s32.32 representation; `>> 5` is an arithmetic shift (floor division by
32) and `& 0x7` keeps the low three bits, i.e. Euclidean mod 8. -/
def angleToDrawnAngle (raw : ℤ) : ℤ := Int.emod (lroundRaw (Int.fdiv raw 32)) 8

/-- The spec's formula `round(angle256 / 32) mod 8` at the rational level,
with round-to-nearest resolving ties upward. -/
def drawnAngleSpec (q : ℚ) : ℤ := Int.emod ⌊q / 32 + 1/2⌋ 8

/-- Helper: rewrite an absolute value into an `if`. -/
theorem abs_ite_form (x : ℚ) : |x| = if 0 ≤ x then x else -x := by
  rcases le_or_lt 0 x with h | h
  · rw [abs_of_nonneg h, if_pos h]
  · rw [abs_of_neg h, if_neg (not_le.mpr h)]

/-- Helper: one turn step in the valid-destination branch moves the heading
so that the circular distance to the destination heading becomes exactly
`max 0 (distance - turnspeed)`. -/
theorem turn_step_distance (a d t : ℚ) (ha0 : 0 ≤ a) (ha : a < 8) (hd0 : 0 ≤ d)
    (hd : d < 8) (ht : 0 ≤ t) :
    angularDistance (turnTowards a d t) d = max 0 (angularDistance a d - t) := by
  unfold turnTowards
  rcases lt_trichotomy a d with hlt | heq | hgt
  · have hngt : ¬ a > d := not_lt.mpr hlt.le
    have hL : angleLeftOf a d = d - a := by
      rw [angleLeftOf, if_neg hngt, if_pos hlt]
    have hR : angleRightOf a d = (8 - d) + a := by
      rw [angleRightOf, if_neg hngt, if_pos hlt, NUM_ANGLES, abs_of_nonneg (by linarith)]
    rw [hL, hR, NUM_ANGLES]
    simp only [angularDistance, abs_ite_form, min_def, max_def, ge_iff_le]
    split_ifs <;> linarith
  · have hngt : ¬ a > d := by rw [heq]; exact lt_irrefl d
    have hnlt : ¬ a < d := by rw [heq]; exact lt_irrefl d
    have hL : angleLeftOf a d = 0 := by rw [angleLeftOf, if_neg hngt, if_neg hnlt]
    have hR : angleRightOf a d = 0 := by rw [angleRightOf, if_neg hngt, if_neg hnlt]
    rw [hL, hR, NUM_ANGLES]
    simp only [angularDistance, abs_ite_form, min_def, max_def, ge_iff_le]
    split_ifs <;> linarith
  · have hL : angleLeftOf a d = (8 - a) + d := by
      rw [angleLeftOf, if_pos hgt, NUM_ANGLES, abs_of_nonneg (by linarith)]
    have hR : angleRightOf a d = a - d := by
      rw [angleRightOf, if_pos hgt]
    rw [hL, hR, NUM_ANGLES]
    simp only [angularDistance, abs_ite_form, min_def, max_def, ge_iff_le]
    split_ifs <;> linarith

/-- Helper: the circular distance between two headings in `[0, 8)` is
nonnegative. -/
theorem angularDistance_nonneg (a d : ℚ) (ha0 : 0 ≤ a) (ha : a < 8) (hd0 : 0 ≤ d)
    (hd : d < 8) : 0 ≤ angularDistance a d := by
  refine le_min (abs_nonneg _) ?_
  have h : |a - d| ≤ 8 := abs_le.mpr ⟨by linarith, by linarith⟩
  linarith

/-- C3 (amended): for every heading `h` in `[0, NUM_ANGLES)` (the code's
heading ring wraps at `NUM_ANGLES = 8`, not at `256`), every destination
heading `d` in `[0, NUM_ANGLES)` and every turn speed `t ≥ 0`, one turn step
of `AirUnit::turn` never overshoots: the angular distance to `d` after the
step equals `max 0 (distance - t)`, and is `≤` the distance before. -/
theorem turn_never_overshoots (a d t : ℚ) (ha0 : 0 ≤ a) (ha : a < NUM_ANGLES)
    (hd0 : 0 ≤ d) (hd : d < NUM_ANGLES) (ht : 0 ≤ t) :
    angularDistance (turnTowards a d t) d = max 0 (angularDistance a d - t) ∧
    angularDistance (turnTowards a d t) d ≤ angularDistance a d := by
  rw [NUM_ANGLES] at ha hd
  have heq := turn_step_distance a d t ha0 ha hd0 hd ht
  refine ⟨heq, ?_⟩
  rw [heq]
  have h0 := angularDistance_nonneg a d ha0 ha hd0 hd
  rcases max_cases (0:ℚ) (angularDistance a d - t) with ⟨hm, hm'⟩ | ⟨hm, hm'⟩ <;>
    rw [hm] <;> linarith

/-- Witness for C3: the turn step at heading `0`, destination heading `4`,
turn speed `1` lands at heading `1`, at distance `3 = max 0 (4 - 1)`. -/
theorem turn_never_overshoots_witness :
    angularDistance (turnTowards 0 4 1) 4 = max 0 (angularDistance 0 4 - 1) ∧
    angularDistance (turnTowards 0 4 1) 4 ≤ angularDistance 0 4 :=
  turn_never_overshoots 0 4 1 (by norm_num) (by norm_num [NUM_ANGLES])
    (by norm_num) (by norm_num [NUM_ANGLES]) (by norm_num)

/-- Counterexample for C3 as stated: headings live in `[0, 256)` according
to the claim, but the code wraps at `NUM_ANGLES = 8`; at heading `100`,
destination heading `0`, turn speed `1`, the step yields heading `93`, whose
angular distance to `0` on the 256-unit ring is `93`, not
`max 0 (100 - 1) = 99`. -/
theorem turn_overshoot_256_counterexample :
    turnTowards 100 0 1 = 93 ∧
    ¬ angularDistance256 (turnTowards 100 0 1) 0 =
        max 0 (angularDistance256 100 0 - 1) := by
  constructor
  · norm_num [turnTowards, angleLeftOf, angleRightOf, NUM_ANGLES, min_def]
  · norm_num [turnTowards, angleLeftOf, angleRightOf, angularDistance256,
      NUM_ANGLES, min_def, max_def, abs_ite_form]

/-- C1 (amended): when `angleLeft` equals `angleRight` with a valid
destination, the `≤` comparison selects the first branch: the unit turns in
the left/positive direction, the heading advancing by
`min(turnspeed, angleLeft)` (with `angleLeft = 4`, the half circle) and
wrapping at `NUM_ANGLES`; the heading does not decrease by the turn
amount. -/
theorem turn_tie_goes_left (a d t : ℚ) (ha0 : 0 ≤ a) (ha : a < NUM_ANGLES)
    (hd0 : 0 ≤ d) (hd : d < NUM_ANGLES) (ht : 0 < t) (hne : a ≠ d)
    (htie : angleLeftOf a d = angleRightOf a d) :
    angleLeftOf a d = 4 ∧ 0 < min t (angleLeftOf a d) ∧
    (turnTowards a d t = a + min t (angleLeftOf a d) ∨
     turnTowards a d t = a + min t (angleLeftOf a d) - NUM_ANGLES) := by
  rw [NUM_ANGLES] at ha hd
  have hL4 : angleLeftOf a d = 4 := by
    rcases lt_trichotomy a d with hlt | heq | hgt
    · have hngt : ¬ a > d := not_lt.mpr hlt.le
      rw [angleLeftOf, if_neg hngt, if_pos hlt]
      rw [angleLeftOf, if_neg hngt, if_pos hlt, angleRightOf, if_neg hngt,
        if_pos hlt, NUM_ANGLES, abs_of_nonneg (by linarith)] at htie
      linarith
    · exact absurd heq hne
    · rw [angleLeftOf, if_pos hgt, NUM_ANGLES, abs_of_nonneg (by linarith)]
      rw [angleLeftOf, if_pos hgt, NUM_ANGLES, abs_of_nonneg (by linarith),
        angleRightOf, if_pos hgt] at htie
      linarith
  refine ⟨hL4, ?_, ?_⟩
  · rw [hL4]
    exact lt_min ht (by norm_num)
  · rw [turnTowards, if_pos (le_of_eq htie)]
    split_ifs with hwrap
    · right; rfl
    · left; rfl

/-- Witness for C1 (amended): at heading `0`, destination heading `4`
(the tie case), turn speed `1`, the step turns left to heading `1`. -/
theorem turn_tie_goes_left_witness :
    angleLeftOf 0 4 = 4 ∧ 0 < min 1 (angleLeftOf 0 4) ∧
    (turnTowards 0 4 1 = 0 + min 1 (angleLeftOf 0 4) ∨
     turnTowards 0 4 1 = 0 + min 1 (angleLeftOf 0 4) - NUM_ANGLES) :=
  turn_tie_goes_left 0 4 1 (by norm_num) (by norm_num [NUM_ANGLES])
    (by norm_num) (by norm_num [NUM_ANGLES]) (by norm_num) (by norm_num)
    (by norm_num [angleLeftOf, angleRightOf, NUM_ANGLES])

/-- Counterexample for C1 as stated: at heading `0`, destination heading
`4`, turn speed `1`, `angleLeft = angleRight = 4` is an exact tie, yet the
turn step raises the heading to `1`; the heading does not decrease. -/
theorem turn_tie_counterexample :
    angleLeftOf 0 4 = angleRightOf 0 4 ∧ turnTowards 0 4 1 = 1 ∧
    ¬ turnTowards 0 4 1 < 0 := by
  refine ⟨by norm_num [angleLeftOf, angleRightOf, NUM_ANGLES], ?_, ?_⟩
  · norm_num [turnTowards, angleLeftOf, angleRightOf, NUM_ANGLES, min_def]
  · norm_num [turnTowards, angleLeftOf, angleRightOf, NUM_ANGLES, min_def]

/-- Helper: removing a unit from a tile keeps the map size. -/
theorem unassign_sizes (m : TileMap) (id : ℕ) (p : ℤ × ℤ) :
    (unassignFromMap m id p).sizeX = m.sizeX ∧ (unassignFromMap m id p).sizeY = m.sizeY := by
  unfold unassignFromMap; split_ifs <;> exact ⟨rfl, rfl⟩

/-- Helper: tile existence only depends on the map size. -/
theorem tileExists_of_sizes {m m' : TileMap} (hx : m'.sizeX = m.sizeX)
    (hy : m'.sizeY = m.sizeY) (p : ℤ × ℤ) : tileExists m' p = tileExists m p := by
  unfold tileExists; rw [hx, hy]

/-- Helper: registering a unit in a tile keeps tile existence. -/
theorem tileExists_assignAirUnit (m : TileMap) (p : ℤ × ℤ) (id : ℕ) (q : ℤ × ℤ) :
    tileExists (assignAirUnit m p id) q = tileExists m q := rfl

/-- Helper: `assignToMap` never changes the unit's object id. -/
theorem assignToMap_snd_objectID (m : TileMap) (u : AirUnitState) (p : ℤ × ℤ) :
    (assignToMap m u p).2.objectID = u.objectID := by
  rw [assignToMap]; split_ifs <;> rfl

/-- Helper: one `AirUnit::move` step preserves the occupancy invariant
whenever the recomputed tile exists. -/
theorem moveStep_preserves (cosVal sinVal : ℚ) (m : TileMap) (u : AirUnitState)
    (hinv : airInvariant m u)
    (hnew : tileExists m (newLocationOf cosVal sinVal u) = true) :
    airInvariant (moveStep cosVal sinVal m u).1 (moveStep cosVal sinVal m u).2 := by
  obtain ⟨hex, hreg⟩ := hinv
  by_cases hch : newLocationOf cosVal sinVal u ≠ u.location
  · set newLoc := newLocationOf cosVal sinVal u with hnl
    set u' : AirUnitState :=
      { u with realX := u.realX + cosVal * u.currentMaxSpeed,
               realY := u.realY + (-sinVal) * u.currentMaxSpeed } with hu'
    set U : TileMap := unassignFromMap m u.objectID u.location with hU
    have hm1 : U.air = fun q => if q = u.location then (m.air q).filter (· != u.objectID) else m.air q := by
      rw [hU, unassignFromMap, if_pos hex]
    have hstep : moveStep cosVal sinVal m u =
        ((assignToMap U u' newLoc).1, { (assignToMap U u' newLoc).2 with location := newLoc }) := by
      rw [moveStep]
      simp only [← hnl, if_pos hch, ← hu', ← hU]
    have hex1 : tileExists U newLoc = true := by
      rw [tileExists_of_sizes (unassign_sizes m u.objectID u.location).1
        (unassign_sizes m u.objectID u.location).2 newLoc]
      exact hnew
    have hasg : (assignToMap U u' newLoc).1 = assignAirUnit U newLoc u'.objectID := by
      rw [assignToMap, if_pos hex1]
    constructor
    · rw [hstep]
      have : tileExists (assignToMap U u' newLoc).1 newLoc = true := by
        rw [hasg, tileExists_assignAirUnit, hex1]
      exact this
    · rw [hstep]
      intro p
      have hobj : ({ (assignToMap U u' newLoc).2 with location := newLoc }).objectID = u.objectID := by
        have h1 : ({ (assignToMap U u' newLoc).2 with location := newLoc }).objectID
            = (assignToMap U u' newLoc).2.objectID := rfl
        rw [h1, assignToMap_snd_objectID]
      rw [hobj]
      have hloc : ({ (assignToMap U u' newLoc).2 with location := newLoc }).location = newLoc := rfl
      rw [hloc, hasg]
      show u.objectID ∈ (assignAirUnit U newLoc u'.objectID).air p ↔ p = newLoc
      have hair : (assignAirUnit U newLoc u'.objectID).air p
          = if p = newLoc then U.air p ++ [u.objectID] else U.air p := rfl
      rw [hair, hm1]
      by_cases hp : p = newLoc
      · simp [hp]
      · simp only [if_neg hp]
        by_cases hpl : p = u.location
        · simp only [if_pos hpl]
          simp [List.mem_filter]
          exact hp
        · simp only [if_neg hpl]
          simp [hreg p, hpl]
          exact hp
  · have hstep2 : moveStep cosVal sinVal m u =
        (m, { u with realX := u.realX + cosVal * u.currentMaxSpeed,
                     realY := u.realY + (-sinVal) * u.currentMaxSpeed }) := by
      rw [moveStep]
      simp only [if_neg hch]
    rw [hstep2]
    exact ⟨hex, hreg⟩

/-- C2 (amended): along every sequence of `AirUnit::move` steps whose
recomputed tile coordinates stay on the map, the unit ends every step
registered in exactly one air-unit tile slot — its own location tile: a
changed tile coordinate unassigns the old tile and assigns the new one
within the same step.  (When a step leaves the map, the guarded
`assignToMap` does nothing and the unit ends in zero slots; see the
counterexample.) -/
theorem move_steps_single_tile_occupancy (l : List (ℚ × ℚ)) (m : TileMap)
    (u : AirUnitState) (hinv : airInvariant m u) (hb : stepsInBounds l (m, u)) :
    airInvariant (moveSteps l (m, u)).1 (moveSteps l (m, u)).2 := by
  induction l generalizing m u with
  | nil => exact hinv
  | cons v rest ih =>
    obtain ⟨h1, h2⟩ := hb
    exact ih (moveStep v.1 v.2 m u).1 (moveStep v.1 v.2 m u).2
      (moveStep_preserves v.1 v.2 m u hinv h1) h2

/-- Witness for C2 (amended): on the two-tile map `mapW`, unit `7` moves
from tile `(0,0)` to tile `(1,0)` in one step and is again registered in
exactly its location tile. -/
theorem move_steps_single_tile_occupancy_witness :
    airInvariant (moveSteps [(64, 0)] (mapW, unitW)).1 (moveSteps [(64, 0)] (mapW, unitW)).2 := by
  apply move_steps_single_tile_occupancy
  · constructor
    · rfl
    · intro p
      by_cases h : p = ((0:ℤ), (0:ℤ)) <;> simp [mapW, unitW, h]
  · constructor
    · have h : newLocationOf 64 0 unitW = (1, 0) := by
        have h1 : lroundQ ((0:ℚ) + 64 * 1) = 64 := by norm_num [lroundQ]
        have h2 : lroundQ ((0:ℚ) + (-0) * 1) = 0 := by norm_num [lroundQ]
        simp only [newLocationOf, unitW]
        rw [h1, h2]
        rfl
      rw [h]
      rfl
    · exact trivial

/-- Counterexample for C2 as stated: on the one-tile map `mapZ`, one move
step carries unit `7` to tile `(5, 0)`, which does not exist; the unit is
unassigned from its old tile and the guarded assignment does nothing, so at
the end of the step the unit is registered in zero air-unit tile slots. -/
theorem move_offmap_zero_tiles_counterexample :
    (moveStep 320 0 mapZ unitZ).2.location = (5, 0) ∧
    registeredNowhere (moveStep 320 0 mapZ unitZ).1 7 := by
  have hnl : newLocationOf 320 0 unitZ = (5, 0) := by
    have h1 : lroundQ ((0:ℚ) + 320 * 1) = 320 := by norm_num [lroundQ]
    have h2 : lroundQ ((0:ℚ) + (-0) * 1) = 0 := by norm_num [lroundQ]
    simp only [newLocationOf, unitZ]
    rw [h1, h2]
    rfl
  have hne : ((5:ℤ), (0:ℤ)) ≠ ((0:ℤ), (0:ℤ)) := by decide
  have hstep : moveStep 320 0 mapZ unitZ =
      ((assignToMap (unassignFromMap mapZ 7 (0, 0))
          { unitZ with realX := (0:ℚ) + 320 * 1, realY := (0:ℚ) + (-0) * 1 } (5, 0)).1,
       { (assignToMap (unassignFromMap mapZ 7 (0, 0))
          { unitZ with realX := (0:ℚ) + 320 * 1, realY := (0:ℚ) + (-0) * 1 } (5, 0)).2
          with location := (5, 0) }) := by
    rw [moveStep]
    simp only [hnl]
    rw [if_pos]
    · rfl
    · show ((5:ℤ), (0:ℤ)) ≠ unitZ.location
      simpa [unitZ] using hne
  have hanoop : (assignToMap (unassignFromMap mapZ 7 (0, 0))
      { unitZ with realX := (0:ℚ) + 320 * 1, realY := (0:ℚ) + (-0) * 1 } (5, 0)) =
      ((unassignFromMap mapZ 7 (0, 0)),
       { unitZ with realX := (0:ℚ) + 320 * 1, realY := (0:ℚ) + (-0) * 1 }) := by
    rw [assignToMap, if_neg]
    rw [tileExists_of_sizes (unassign_sizes mapZ 7 (0, 0)).1 (unassign_sizes mapZ 7 (0, 0)).2]
    decide
  constructor
  · rw [hstep]
  · rw [hstep, hanoop]
    intro p
    have hex0 : tileExists mapZ ((0:ℤ), (0:ℤ)) = true := rfl
    have hu : (unassignFromMap mapZ 7 (0, 0)).air p =
        if p = ((0:ℤ), (0:ℤ)) then (mapZ.air p).filter (· != 7) else mapZ.air p := by
      rw [unassignFromMap, if_pos hex0]
    show 7 ∉ (unassignFromMap mapZ 7 (0, 0)).air p
    rw [hu]
    by_cases h : p = ((0:ℤ), (0:ℤ))
    · simp [mapZ, h]
    · have h0 : p ≠ (0 : ℤ × ℤ) := h
      simp [mapZ, h, h0]

/-- Helper: one move step adds the x-velocity to `realX`. -/
theorem moveStep_snd_realX (c s : ℚ) (m : TileMap) (u : AirUnitState) :
    (moveStep c s m u).2.realX = u.realX + c * u.currentMaxSpeed := by
  rw [moveStep]
  split_ifs with h
  · show (assignToMap _ _ _).2.realX = _
    rw [assignToMap]; split_ifs <;> rfl
  · rfl

/-- Helper: one move step adds the y-velocity to `realY`. -/
theorem moveStep_snd_realY (c s : ℚ) (m : TileMap) (u : AirUnitState) :
    (moveStep c s m u).2.realY = u.realY + (-s) * u.currentMaxSpeed := by
  rw [moveStep]
  split_ifs with h
  · show (assignToMap _ _ _).2.realY = _
    rw [assignToMap]; split_ifs <;> rfl
  · rfl

/-- Helper: after one move step the stored location is the recomputed tile
coordinate. -/
theorem moveStep_snd_location (c s : ℚ) (m : TileMap) (u : AirUnitState) :
    (moveStep c s m u).2.location = newLocationOf c s u := by
  rw [moveStep]
  split_ifs with h
  · rfl
  · push_neg at h
    exact h.symm

/-- C4 (amended): after every completed `AirUnit::move` step, the unit's
integer tile coordinate equals the tile derived from the latest fixed-point
position by rounding to the nearest integer and then dividing by `TILESIZE`
with C++ truncating integer division — `lround(real)/TILESIZE`, not
`floor(real/TILESIZE)` — in both components. -/
theorem move_location_tracks_position (c s : ℚ) (m : TileMap) (u : AirUnitState) :
    (moveStep c s m u).2.location =
      (Int.tdiv (lroundQ (moveStep c s m u).2.realX) TILESIZE,
       Int.tdiv (lroundQ (moveStep c s m u).2.realY) TILESIZE) := by
  rw [moveStep_snd_location, moveStep_snd_realX, moveStep_snd_realY]
  rfl

/-- Counterexample for C4 as stated: one move step carries `unitF` to
`realX = 63.7`; the code stores tile x-coordinate
`lround(63.7)/64 = 64/64 = 1`, whereas `floor(63.7/64) = 0`. -/
theorem move_location_floor_counterexample :
    (moveStep (637/10) 0 mapF unitF).2.location.1 = 1 ∧
    ⌊(moveStep (637/10) 0 mapF unitF).2.realX / ((TILESIZE : ℚ))⌋ = 0 := by
  constructor
  · rw [moveStep_snd_location]
    have h1 : lroundQ ((0:ℚ) + 637/10 * 1) = 64 := by norm_num [lroundQ]
    simp only [newLocationOf, unitF]
    rw [h1]
    decide
  · rw [moveStep_snd_realX]
    norm_num [unitF, TILESIZE]

/-- C5: saving an air unit and loading it back from the produced stream
yields a unit whose position, heading, health, destination state and
current max speed equal the original's; `AirUnit::save` writes the base
fields and then `currentMaxSpeed`, and the stream constructor reads them
back in the same order. -/
theorem save_load_roundtrip (u : AirUnitState) (rest : List StreamElem) :
    ∃ v : AirUnitState,
      loadAirUnit (saveAirUnit u ++ rest) = some (v, rest) ∧
      v.realX = u.realX ∧ v.realY = u.realY ∧ v.angle = u.angle ∧
      v.health = u.health ∧ v.destination = u.destination ∧
      v.currentMaxSpeed = u.currentMaxSpeed := by
  cases hd : u.destination with
  | none =>
      refine ⟨loadedBase u none, ?_, rfl, rfl, rfl, rfl, ?_, rfl⟩
      · simp [saveAirUnit, saveUnitBase, loadAirUnit, loadUnitBase, hd, loadedBase]
      · rfl
  | some c =>
      refine ⟨loadedBase u (some c), ?_, rfl, rfl, rfl, rfl, ?_, rfl⟩
      · simp [saveAirUnit, saveUnitBase, loadAirUnit, loadUnitBase, hd, loadedBase]
      · rfl

/-- C6 (amended): `Ornithopter::canAttack` is a pure predicate that holds
iff the candidate is non-null, is not a flying unit, is on an opposing team
or is the Sandworm special case (the exception attaches to the team
condition, not the flying-unit condition), and is visible to the observing
team. -/
theorem canAttack_characterization (ownerTeam : ℤ) :
    canAttackOrni ownerTeam none = false ∧
    ∀ o : TargetObject, (canAttackOrni ownerTeam (some o) = true ↔
      (o.aFlyingUnit = false ∧ (o.team ≠ ownerTeam ∨ o.itemID = Unit_Sandworm) ∧
       o.visibleToTeam ownerTeam = true)) := by
  refine ⟨rfl, fun o => ?_⟩
  simp [canAttackOrni]
  tauto

/-- Counterexample for C6 as stated: a visible non-flying Sandworm on the
observer's own team is attackable in the code, but the claim's rule — which
requires an opposing team unconditionally — rejects it. -/
theorem canAttack_claim_counterexample :
    canAttackOrni 0 (some sandwormAlly) = true ∧ canAttackClaim 0 sandwormAlly = false := by
  constructor <;> rfl

/-- C7: in `Ornithopter::checkPos` with no combat target, a valid
destination within block distance 2 of the unit's location is invalidated,
and an invalid destination with the guard point farther than block
distance 17 is replaced by the guard point. -/
theorem checkPos_destination_policy (cycle : ℕ) (u : AirUnitState)
    (h : u.hasTarget = false) :
    (∀ dest, u.destination = some dest → blockDistance u.location dest ≤ 2 →
      (checkPosOrni cycle u).destination = none) ∧
    (∀ g, u.destination = none → u.guardPoint = some g →
      blockDistance u.location g > 17 →
      (checkPosOrni cycle u).destination = some g) := by
  constructor
  · intro dest hd hb
    simp [checkPosOrni, h, hd, hb]
  · intro g hd hg hb
    simp [checkPosOrni, h, hd, hg, hb]

/-- Witness for C7: unit `unitC7` at `(0,0)` with destination `(1,1)`
(block distance 1 ≤ 2) has its destination invalidated by `checkPos`. -/
theorem checkPos_destination_policy_witness :
    (checkPosOrni 0 unitC7).destination = none :=
  (checkPos_destination_policy 0 unitC7 rfl).1 (1, 1) rfl (by decide)

/-- C9: `AirUnit::assignToMap` at a coordinate whose tile does not exist is
a no-op: the map and the unit (including the guard point) are returned
unchanged, with no error. -/
theorem assignToMap_oob_noop (m : TileMap) (u : AirUnitState) (pos : ℤ × ℤ)
    (h : tileExists m pos = false) : assignToMap m u pos = (m, u) := by
  rw [assignToMap, if_neg]
  simp [h]

/-- Witness for C9: assigning `unitN` to the non-existent tile `(5,5)` of
the one-tile map `mapN` changes nothing. -/
theorem assignToMap_oob_noop_witness : assignToMap mapN unitN (5, 5) = (mapN, unitN) :=
  assignToMap_oob_noop mapN unitN (5, 5) (by decide)

/-- C10: `AirUnit::canPass` returns true for every coordinate, including
out-of-bounds ones, whereas the `Ornithopter` override returns true iff the
tile exists and contains no air unit. -/
theorem canPass_characterization :
    (∀ xPos yPos : ℤ, canPassAir xPos yPos = true) ∧
    (∀ (m : TileMap) (xPos yPos : ℤ),
      canPassOrni m xPos yPos = true ↔
        tileExists m (xPos, yPos) = true ∧ hasAnAirUnit m (xPos, yPos) = false) := by
  refine ⟨fun _ _ => rfl, fun m x y => ?_⟩
  simp [canPassOrni]

/-- Helper: floor division composes over positive divisors. -/
theorem ediv_ediv_helper (a : ℤ) (b c : ℤ) (hb : 0 < b) (hc : 0 < c) :
    (a / b) / c = a / (b * c) := by
  have hbc : 0 < b * c := mul_pos hb hc
  have h1 := Int.ediv_add_emod a (b * c)
  set q := a / (b * c) with hq
  set r := a % (b * c) with hr
  have hr0 : 0 ≤ r := Int.emod_nonneg a (ne_of_gt hbc)
  have hrlt : r < b * c := Int.emod_lt_of_pos a hbc
  have ha : a = r + (c * q) * b := by linarith [h1]
  have h2 : a / b = r / b + c * q := by
    rw [ha, Int.add_mul_ediv_right _ _ (ne_of_gt hb)]
  have h3 : (a / b) / c = (r / b) / c + q := by
    rw [h2]
    have : r / b + c * q = r / b + q * c := by ring
    rw [this, Int.add_mul_ediv_right _ _ (ne_of_gt hc)]
  have h4 : r / b < c := by
    rw [Int.ediv_lt_iff_lt_mul hb]
    calc r < b * c := hrlt
    _ = c * b := by ring
  have h5 : 0 ≤ r / b := Int.ediv_nonneg hr0 (le_of_lt hb)
  have h6 : (r / b) / c = 0 := Int.ediv_eq_zero_of_lt h5 h4
  rw [h3, h6, zero_add]

/-- Helper: the raw `lround` is a floor division with positive divisor. -/
theorem lroundRaw_ediv (x : ℤ) : lroundRaw x = (x + 2 ^ 31) / FIX_ONE := by
  rw [lroundRaw, Int.fdiv_eq_ediv _ (by norm_num [FIX_ONE])]

/-- Helper: `angleToDrawnAngle` collapses to a single floor division. -/
theorem angleToDrawnAngle_ediv (raw : ℤ) :
    angleToDrawnAngle raw = Int.emod ((raw + 2 ^ 36) / 2 ^ 37) 8 := by
  rw [angleToDrawnAngle, lroundRaw_ediv, Int.fdiv_eq_ediv _ (by norm_num)]
  have h1 : raw / 32 + 2 ^ 31 = (raw + 2 ^ 36) / 32 := by
    have : raw + 2 ^ 36 = raw + (2 ^ 31) * 32 := by norm_num
    rw [this, Int.add_mul_ediv_right _ _ (by norm_num : (32:ℤ) ≠ 0)]
  rw [h1, FIX_ONE, ediv_ediv_helper _ _ _ (by norm_num) (by norm_num)]
  norm_num

/-- C8: `angleToDrawnAngle` is a pure function of its angle argument whose
result always lies in `[0, 8)`, which is invariant under adding 256 (one
full turn of the 256-unit angle space, `256 * FIX_ONE` on the raw
representation), and which computes `round(angle256 / 32) mod 8`. -/
theorem angle_to_drawn_angle_props (raw : ℤ) :
    (0 ≤ angleToDrawnAngle raw ∧ angleToDrawnAngle raw < 8) ∧
    angleToDrawnAngle (raw + 256 * FIX_ONE) = angleToDrawnAngle raw ∧
    angleToDrawnAngle raw = drawnAngleSpec ((raw : ℚ) / ((FIX_ONE : ℚ))) := by
  refine ⟨⟨Int.emod_nonneg _ (by norm_num), Int.emod_lt_of_pos _ (by norm_num)⟩, ?_, ?_⟩
  · rw [angleToDrawnAngle_ediv, angleToDrawnAngle_ediv]
    have h1 : raw + 256 * FIX_ONE + 2 ^ 36 = (raw + 2 ^ 36) + 8 * 2 ^ 37 := by
      norm_num [FIX_ONE]; ring
    rw [h1, Int.add_mul_ediv_right _ _ (by norm_num : (2:ℤ) ^ 37 ≠ 0)]
    show ((raw + 2 ^ 36) / 2 ^ 37 + 8) % 8 = ((raw + 2 ^ 36) / 2 ^ 37) % 8
    have h3 : (raw + 2 ^ 36) / 2 ^ 37 + 8 = (raw + 2 ^ 36) / 2 ^ 37 + 8 * 1 := by ring
    rw [h3, Int.add_mul_emod_self_left]
  · rw [angleToDrawnAngle_ediv, drawnAngleSpec]
    congr 1
    have h2 : (raw : ℚ) / ((FIX_ONE : ℚ)) / 32 + 1/2 = ((raw + 2 ^ 36 : ℤ) : ℚ) / ((2 ^ 37 : ℕ) : ℚ) := by
      push_cast [FIX_ONE]
      field_simp
      ring
    rw [h2, Rat.floor_intCast_div_natCast]
    norm_num
